import Mathlib

/-!
Verification of the smart-classroom IoT repository's presence-fusion and
state-synchronization logic.  The Python sources are shallowly embedded as
Lean functions: the sliding-window debouncers from
`AI_detection/AI_Presence_Detection.py` and `AI_detection/realtime_presence.py`,
the timeout-based hybrid fuser from `AI_detection/simple_presence.py`,
the air-quality classifier from `pi_mq135_publisher.py`, and the
MQTT-to-Firebase bridge message handler from `pi_mqtt_firebase_bridge.py`.
-/

namespace SmartClassroom

/-! ## Debouncer from AI_detection/AI_Presence_Detection.py

The class keeps `self.detection_history` (a Python list, appended at the end,
`pop(0)` evicting the oldest element at the front) and
`self.history_size = 4`.  `stable_presence_detection` returns the updated
history together with the boolean result, mirroring lines 122-135. -/

namespace AIPD

def history_size : Nat := 4

def stable_presence_detection (hist : List Bool) (person_count : Nat) :
    List Bool × Bool :=
  let h0 := hist ++ [decide (person_count > 0)]
  let h := if h0.length > history_size then h0.drop 1 else h0
  if person_count = 0 then (h, false)
  else if h.length ≥ 3 then (h, decide (2 ≤ h.count true))
  else (h, decide (person_count > 0))

end AIPD

/-! ## Debouncer from AI_detection/realtime_presence.py

Same sliding window with `self.history_size = 5` (line 57) but, unlike the
variant above, lines 81-96 contain no zero-count short circuit: the result is
the majority vote whenever at least 3 samples are recorded. -/

namespace RTP

def history_size : Nat := 5

def stable_presence_detection (hist : List Bool) (person_count : Nat) :
    List Bool × Bool :=
  let h0 := hist ++ [decide (person_count > 0)]
  let h := if h0.length > history_size then h0.drop 1 else h0
  if h.length ≥ 3 then (h, decide (2 ≤ h.count true))
  else (h, decide (person_count > 0))

end RTP

/-! ## TimeoutFuser from AI_detection/simple_presence.py

State is `self.last_person_detected`; `self.person_timeout = 10.0`.
`hybrid_presence_detection` (lines 75-89) returns the updated timestamp
together with the presence boolean.  Timestamps are modelled as rationals. -/

namespace SimplePresence

def person_timeout : ℚ := 10

def hybrid_presence_detection (last_person_detected : ℚ)
    (hog_detected motion_detected : Bool) (now : ℚ) : ℚ × Bool :=
  if hog_detected then (now, true)
  else if now - last_person_detected < person_timeout then
    (last_person_detected, true)
  else (last_person_detected, motion_detected)

/-- Run of the fuser over a list of samples (hog, motion, now), returning the
presence output of each call in order. -/
def runDetect : ℚ → List (Bool × Bool × ℚ) → List Bool
  | _, [] => []
  | last, (hog, motion, now) :: rest =>
    let r := hybrid_presence_detection last hog motion now
    r.2 :: runDetect r.1 rest

end SimplePresence

/-! ## Python value and string primitives

The bridge script manipulates dynamically typed JSON values and uses the
Python builtins `int`, `float`, `bool`, `str.strip` and `str.lower`.
These library primitives are modelled here; numeric strings are parsed as
optional-sign decimal literals (exponents and the special floats are outside
the model), and floats are represented by rationals. -/

inductive JVal : Type
  | jnull : JVal
  | jbool (b : Bool) : JVal
  | jint (n : Int) : JVal
  | jnum (q : ℚ) : JVal
  | jstr (s : String) : JVal
  | jobj (fields : List (String × JVal)) : JVal

inductive PyErr : Type
  | valueError : PyErr
  | typeError : PyErr
  | attributeError : PyErr
  | jsonError : PyErr
  | requestError : PyErr
deriving DecidableEq

/-- Model of Python `str.strip()` with no argument: remove leading and
trailing whitespace. -/
def pyStrip (s : String) : String :=
  ⟨((s.toList.dropWhile Char.isWhitespace).reverse.dropWhile
      Char.isWhitespace).reverse⟩

def asciiLower (c : Char) : Char :=
  if 65 ≤ c.toNat ∧ c.toNat ≤ 90 then Char.ofNat (c.toNat + 32) else c

/-- Model of Python `str.lower()` (ASCII letters suffice for this code). -/
def pyLower (s : String) : String := ⟨s.toList.map asciiLower⟩

def digitsToNat (cs : List Char) : Nat :=
  cs.foldl (fun a c => a * 10 + (c.toNat - 48)) 0

def parseDigits (cs : List Char) : Option Nat :=
  if cs ≠ [] ∧ cs.all Char.isDigit then some (digitsToNat cs) else none

/-- Model of Python `int(str)`: optional sign and decimal digits, surrounded
by optional whitespace; anything else raises ValueError (here: `none`). -/
def pyIntOfString (s : String) : Option Int :=
  match (pyStrip s).toList with
  | '-' :: cs => (parseDigits cs).map (fun n => -(n : Int))
  | '+' :: cs => (parseDigits cs).map (fun n => (n : Int))
  | cs => (parseDigits cs).map (fun n => (n : Int))

/-- Model of Python `float(str)` restricted to finite decimal literals:
optional sign, digits, optional fractional part.  Exponents, `inf` and
`nan` are outside the model and map to `none`. -/
def pyFloatOfString (s : String) : Option ℚ :=
  let core : List Char → Option ℚ := fun cs =>
    let ip := cs.takeWhile Char.isDigit
    match cs.drop ip.length with
    | [] => (parseDigits cs).map (fun n => (n : ℚ))
    | '.' :: fp =>
      if (ip ≠ [] ∨ fp ≠ []) ∧ fp.all Char.isDigit then
        some ((digitsToNat ip : ℚ) + (digitsToNat fp : ℚ) / (10 : ℚ) ^ fp.length)
      else none
    | _ => none
  match (pyStrip s).toList with
  | '-' :: cs => (core cs).map (fun q => -q)
  | '+' :: cs => core cs
  | cs => core cs

/-- Truncation toward zero, as Python `int(float)` on finite values. -/
def ratTrunc (q : ℚ) : Int := Int.tdiv q.num (q.den : Int)

/-- Python truthiness, as used by `bool(obj.get('on', False))`. -/
def pybool : JVal → Bool
  | .jnull => false
  | .jbool b => b
  | .jint n => n != 0
  | .jnum q => q != 0
  | .jstr s => s != ""
  | .jobj f => !f.isEmpty

/-- Python `int(v)` on a decoded JSON value. -/
def pyint : JVal → Except PyErr Int
  | .jnull => .error .typeError
  | .jbool b => .ok (if b then 1 else 0)
  | .jint n => .ok n
  | .jnum q => .ok (ratTrunc q)
  | .jstr s =>
    match pyIntOfString s with
    | some n => .ok n
    | none => .error .valueError
  | .jobj _ => .error .typeError

/-- Python `float(v)` on a decoded JSON value. -/
def pyfloat : JVal → Except PyErr ℚ
  | .jnull => .error .typeError
  | .jbool b => .ok (if b then 1 else 0)
  | .jint n => .ok (n : ℚ)
  | .jnum q => .ok q
  | .jstr s =>
    match pyFloatOfString s with
    | some q => .ok q
    | none => .error .valueError
  | .jobj _ => .error .typeError

/-- Python `dict.get(k, dflt)`.  `json.loads` builds dicts where a repeated
key keeps its last value, hence the reversed search. -/
def jget (fields : List (String × JVal)) (k : String) (dflt : JVal) : JVal :=
  match fields.reverse.find? (fun kv => kv.1 == k) with
  | some kv => kv.2
  | none => dflt

/-- Python `obj.get(k, dflt)` on an arbitrary decoded value: a non-dict
raises AttributeError. -/
def objGet (v : JVal) (k : String) (dflt : JVal) : Except PyErr JVal :=
  match v with
  | .jobj fields => .ok (jget fields k dflt)
  | _ => .error .attributeError

/-! ## Air-quality classifier from pi_mq135_publisher.py (lines 42-57) -/

def AQ_GOOD_MAX : Int := 300

def AQ_MODERATE_MAX : Int := 400

def classify_air_quality (raw_value : Int) : String × String :=
  if raw_value ≥ AQ_MODERATE_MAX + 1 then ("Poor", "Alert, air quality poor")
  else if raw_value ≥ AQ_GOOD_MAX + 1 then
    ("Moderate", "Warning, air quality moderate")
  else ("Good", "")

/-! ## MQTT-to-Firebase bridge from pi_mqtt_firebase_bridge.py

The two mutable dictionaries `state` (lighting, lines 34-42) and
`climate_state` (lines 44-53) are embedded as records.  Fields that only
ever receive one Python type use that type; `climate_state['mode']`,
`['comfortBand']` and `['aqStatus']` receive raw `obj.get` results and are
typed `JVal`.  An inbound MQTT payload is modelled as its raw UTF-8 text
together with the result of `json.loads` on it (`none` when `json.loads`
raises). -/

namespace Bridge

structure LedState : Type where
  «on» : Bool
  pwm : Int
deriving DecidableEq

structure FanState : Type where
  «on» : Bool
  pwm : Int
deriving DecidableEq

structure LightingState : Type where
  ldrRaw : Option Int
  led : LedState
  mode : String
  ai_presence : Bool
  ai_people_count : Int
  ai_confidence : ℚ
  ai_timestamp : Int

structure ClimateState : Type where
  tempC : Option ℚ
  humidity : Option ℚ
  aqRaw : Option Int
  aqStatus : JVal
  fan : FanState
  comfortBand : JVal
  mode : JVal
  presence : Bool

structure BridgeState : Type where
  lighting : LightingState
  climate : ClimateState

/-- Initial `state` dict, lines 34-42. -/
def init_state : LightingState :=
  { ldrRaw := none, led := { «on» := false, pwm := 0 }, mode := "auto",
    ai_presence := false, ai_people_count := 0, ai_confidence := 0,
    ai_timestamp := 0 }

/-- Initial `climate_state` dict, lines 44-53. -/
def init_climate_state : ClimateState :=
  { tempC := none, humidity := none, aqRaw := none,
    aqStatus := .jstr "Good", fan := { «on» := false, pwm := 0 },
    comfortBand := .jstr "Low", mode := .jstr "auto", presence := false }

def initBridge : BridgeState := ⟨init_state, init_climate_state⟩

/-- Outcome of one `requests.patch` attempt: an HTTP status, or a raised
exception (timeout, refused connection, ...). -/
inductive PatchOutcome : Type
  | status (code : Int) : PatchOutcome
  | raise (e : PyErr) : PatchOutcome

/-- Lines 56-63: copy the lighting state under the lock and try a single
`requests.patch` with `timeout=5`; `except Exception: pass` swallows every
failure and the function falls through to Python's implicit `return None`. -/
def patch_state (s : LightingState) (attempt : PatchOutcome) :
    Except PyErr JVal :=
  let _payload := s
  match (match attempt with
         | .status code => Except.ok code
         | .raise e => Except.error e : Except PyErr Int) with
  | .ok _ => .ok .jnull
  | .error _ => .ok .jnull

/-- Lines 65-72: same policy for the climate section. -/
def patch_climate_state (c : ClimateState) (attempt : PatchOutcome) :
    Except PyErr JVal :=
  let _payload := c
  match (match attempt with
         | .status code => Except.ok code
         | .raise e => Except.error e : Except PyErr Int) with
  | .ok _ => .ok .jnull
  | .error _ => .ok .jnull

/-- An inbound message payload: the decoded UTF-8 text plus the result of
`json.loads` on that text. -/
structure Payload : Type where
  raw : String
  json : Option JVal

/-! Per-topic decoding, extracted from the `on_message` branches so that the
write-footprint of each branch can be stated once.  Each function returns
exactly what the branch stores, or the first exception the branch raises
before storing anything. -/

/-- Lines 80-88: `json.loads` and `obj.get('ldrRaw')` under an inner `try`
whose fallback is `int(data)`; the final `int(val)` sits outside it. -/
def brightness_val (p : Payload) : Except PyErr Int :=
  match p.json with
  | some (.jobj fields) => pyint (jget fields "ldrRaw" .jnull)
  | some _ =>
    match pyIntOfString p.raw with
    | some n => .ok n
    | none => .error .valueError
  | none =>
    match pyIntOfString p.raw with
    | some n => .ok n
    | none => .error .valueError

/-- Lines 89-96: `{'on': bool(obj.get('on', False)), 'pwm': int(obj.get('pwm', 0))}`. -/
def led_val (p : Payload) : Except PyErr LedState :=
  match p.json with
  | some (.jobj fields) =>
    match pyint (jget fields "pwm" (.jint 0)) with
    | .ok pw => .ok { «on» := pybool (jget fields "on" (.jbool false)), pwm := pw }
    | .error e => .error e
  | some _ => .error .attributeError
  | none => .error .jsonError

/-- Lines 103-107: `float(obj.get('c', 0))`. -/
def temp_val (p : Payload) : Except PyErr ℚ :=
  match p.json with
  | some (.jobj fields) => pyfloat (jget fields "c" (.jint 0))
  | some _ => .error .attributeError
  | none => .error .jsonError

/-- Lines 108-112: `float(obj.get('rh', 0))`. -/
def hum_val (p : Payload) : Except PyErr ℚ :=
  match p.json with
  | some (.jobj fields) => pyfloat (jget fields "rh" (.jint 0))
  | some _ => .error .attributeError
  | none => .error .jsonError

/-- Lines 113-122: fan dict plus the raw `mode` and `band` lookups. -/
def fan_val (p : Payload) : Except PyErr (FanState × JVal × JVal) :=
  match p.json with
  | some (.jobj fields) =>
    match pyint (jget fields "pwm" (.jint 0)) with
    | .ok pw =>
      .ok ({ «on» := pybool (jget fields "on" (.jbool false)), pwm := pw },
           jget fields "mode" (.jstr "auto"), jget fields "band" (.jstr "Low"))
    | .error e => .error e
  | some _ => .error .attributeError
  | none => .error .jsonError

/-- Lines 125-129: `int(obj.get('mq135', 0))`. -/
def aq_raw_val (p : Payload) : Except PyErr Int :=
  match p.json with
  | some (.jobj fields) => pyint (jget fields "mq135" (.jint 0))
  | some _ => .error .attributeError
  | none => .error .jsonError

/-- Lines 130-134: `obj.get('status', 'Good')`, stored as-is. -/
def aq_status_val (p : Payload) : Except PyErr JVal :=
  match p.json with
  | some (.jobj fields) => .ok (jget fields "status" (.jstr "Good"))
  | some _ => .error .attributeError
  | none => .error .jsonError

/-- Lines 148-151: `int(float(data))`. -/
def count_val (p : Payload) : Except PyErr Int :=
  match pyFloatOfString p.raw with
  | some q => .ok (ratTrunc q)
  | none => .error .valueError

/-- Lines 153-156: `float(data)`. -/
def conf_val (p : Payload) : Except PyErr ℚ :=
  match pyFloatOfString p.raw with
  | some q => .ok q
  | none => .error .valueError

/-- Body of `on_message` (lines 74-157) inside the outer `try`: topics are
compared in source order; every branch merges its fields under the lock and
then calls the corresponding patch function.  `now` models
`int(time.time() * 1000)`; `po` supplies the outcome of the k-th
`requests.patch` attempt made while handling this message.  A raised
exception is returned as `Except.error`. -/
def on_message_body (topic : String) (p : Payload) (now : Int)
    (po : Nat → PatchOutcome) (st : BridgeState) :
    Except PyErr BridgeState :=
  if topic = "sensors/lighting/brightness" then
    match brightness_val p with
    | .error e => .error e
    | .ok n =>
      let s := { st.lighting with ldrRaw := some n }
      match patch_state s (po 0) with
      | .error e => .error e
      | .ok _ => .ok ⟨s, st.climate⟩
  else if topic = "sensors/lighting/led_state" then
    match led_val p with
    | .error e => .error e
    | .ok lv =>
      let s := { st.lighting with led := lv }
      match patch_state s (po 0) with
      | .error e => .error e
      | .ok _ => .ok ⟨s, st.climate⟩
  else if topic = "sensors/lighting/mode" then
    let s := { st.lighting with
               mode := if pyStrip p.raw = "manual" then "manual" else "auto" }
    match patch_state s (po 0) with
    | .error e => .error e
    | .ok _ => .ok ⟨s, st.climate⟩
  else if topic = "sensors/climate/temperature" then
    match temp_val p with
    | .error e => .error e
    | .ok q =>
      let c := { st.climate with tempC := some q }
      match patch_climate_state c (po 0) with
      | .error e => .error e
      | .ok _ => .ok ⟨st.lighting, c⟩
  else if topic = "sensors/climate/humidity" then
    match hum_val p with
    | .error e => .error e
    | .ok q =>
      let c := { st.climate with humidity := some q }
      match patch_climate_state c (po 0) with
      | .error e => .error e
      | .ok _ => .ok ⟨st.lighting, c⟩
  else if topic = "sensors/climate/fan_state" then
    match fan_val p with
    | .error e => .error e
    | .ok fmb =>
      let c := { st.climate with
                 fan := fmb.1, mode := fmb.2.1, comfortBand := fmb.2.2 }
      match patch_climate_state c (po 0) with
      | .error e => .error e
      | .ok _ => .ok ⟨st.lighting, c⟩
  else if topic = "sensors/air/quality_raw" then
    match aq_raw_val p with
    | .error e => .error e
    | .ok n =>
      let c := { st.climate with aqRaw := some n }
      match patch_climate_state c (po 0) with
      | .error e => .error e
      | .ok _ => .ok ⟨st.lighting, c⟩
  else if topic = "sensors/air/quality_status" then
    match aq_status_val p with
    | .error e => .error e
    | .ok v =>
      let c := { st.climate with aqStatus := v }
      match patch_climate_state c (po 0) with
      | .error e => .error e
      | .ok _ => .ok ⟨st.lighting, c⟩
  else if topic = "ai/presence/detection" then
    let is_present := pyLower (pyStrip p.raw) == "true"
    let s := { st.lighting with
               ai_presence := is_present, ai_timestamp := now }
    let c := { st.climate with presence := is_present }
    match patch_state s (po 0) with
    | .error e => .error e
    | .ok _ =>
      match patch_climate_state c (po 1) with
      | .error e => .error e
      | .ok _ => .ok ⟨s, c⟩
  else if topic = "ai/presence/count" then
    match count_val p with
    | .error e => .error e
    | .ok n =>
      let s := { st.lighting with ai_people_count := n, ai_timestamp := now }
      match patch_state s (po 0) with
      | .error e => .error e
      | .ok _ => .ok ⟨s, st.climate⟩
  else if topic = "ai/presence/confidence" then
    match conf_val p with
    | .error e => .error e
    | .ok q =>
      let s := { st.lighting with ai_confidence := q, ai_timestamp := now }
      match patch_state s (po 0) with
      | .error e => .error e
      | .ok _ => .ok ⟨s, st.climate⟩
  else .ok st

/-- The complete handler: lines 78 and 158-159 wrap the body in
`try ... except Exception: return`, so a raised exception leaves the shared
state exactly as it was. -/
def on_message (topic : String) (p : Payload) (now : Int)
    (po : Nat → PatchOutcome) (st : BridgeState) : BridgeState :=
  match on_message_body topic p now po st with
  | .ok st2 => st2
  | .error _ => st

/-- One inbound MQTT message, together with its arrival time and the
network-attempt oracle for the patches made while handling it. -/
structure InMsg : Type where
  topic : String
  payload : Payload
  now : Int
  po : Nat → PatchOutcome

/-- The ingestion loop: `client.loop_forever()` delivers the messages one
after the other to `on_message`. -/
def processMsgs (ms : List InMsg) (st : BridgeState) : BridgeState :=
  ms.foldl (fun s m => on_message m.topic m.payload m.now m.po s) st

/-! ## Field-level view of the handler

Every `on_message` branch either raises before mutating anything or stores
a fixed list of field values computed from the payload and the timestamp
alone.  `writesOf` lists those stores; `on_message_writes` below proves that
the handler is exactly the application of that list. -/

inductive Field : Type
  | ldrRaw | led | lmode | aiPresence | aiPeopleCount | aiConfidence
  | aiTimestamp | tempC | humidity | fan | cmode | comfortBand
  | aqRaw | aqStatus | cpresence
deriving DecidableEq

inductive FWrite : Type
  | wLdrRaw (v : Int)
  | wLed (v : LedState)
  | wLMode (v : String)
  | wAiPresence (v : Bool)
  | wAiPeopleCount (v : Int)
  | wAiConfidence (v : ℚ)
  | wAiTimestamp (v : Int)
  | wTempC (v : ℚ)
  | wHumidity (v : ℚ)
  | wFan (v : FanState)
  | wCMode (v : JVal)
  | wComfortBand (v : JVal)
  | wAqRaw (v : Int)
  | wAqStatus (v : JVal)
  | wCPresence (v : Bool)

def fieldOfW : FWrite → Field
  | .wLdrRaw _ => .ldrRaw
  | .wLed _ => .led
  | .wLMode _ => .lmode
  | .wAiPresence _ => .aiPresence
  | .wAiPeopleCount _ => .aiPeopleCount
  | .wAiConfidence _ => .aiConfidence
  | .wAiTimestamp _ => .aiTimestamp
  | .wTempC _ => .tempC
  | .wHumidity _ => .humidity
  | .wFan _ => .fan
  | .wCMode _ => .cmode
  | .wComfortBand _ => .comfortBand
  | .wAqRaw _ => .aqRaw
  | .wAqStatus _ => .aqStatus
  | .wCPresence _ => .cpresence

def applyW (w : FWrite) (st : BridgeState) : BridgeState :=
  match w with
  | .wLdrRaw v => { st with lighting := { st.lighting with ldrRaw := some v } }
  | .wLed v => { st with lighting := { st.lighting with led := v } }
  | .wLMode v => { st with lighting := { st.lighting with mode := v } }
  | .wAiPresence v =>
    { st with lighting := { st.lighting with ai_presence := v } }
  | .wAiPeopleCount v =>
    { st with lighting := { st.lighting with ai_people_count := v } }
  | .wAiConfidence v =>
    { st with lighting := { st.lighting with ai_confidence := v } }
  | .wAiTimestamp v =>
    { st with lighting := { st.lighting with ai_timestamp := v } }
  | .wTempC v => { st with climate := { st.climate with tempC := some v } }
  | .wHumidity v => { st with climate := { st.climate with humidity := some v } }
  | .wFan v => { st with climate := { st.climate with fan := v } }
  | .wCMode v => { st with climate := { st.climate with mode := v } }
  | .wComfortBand v =>
    { st with climate := { st.climate with comfortBand := v } }
  | .wAqRaw v => { st with climate := { st.climate with aqRaw := some v } }
  | .wAqStatus v => { st with climate := { st.climate with aqStatus := v } }
  | .wCPresence v => { st with climate := { st.climate with presence := v } }

def applyWs (l : List FWrite) (st : BridgeState) : BridgeState :=
  l.foldl (fun s w => applyW w s) st

/-- The stores performed by `on_message` for a given topic, payload and
timestamp; empty when the branch raises (the outer `except` then leaves the
state untouched) and for unroutable topics. -/
def writesOf (topic : String) (p : Payload) (now : Int) : List FWrite :=
  if topic = "sensors/lighting/brightness" then
    match brightness_val p with
    | .error _ => []
    | .ok n => [.wLdrRaw n]
  else if topic = "sensors/lighting/led_state" then
    match led_val p with
    | .error _ => []
    | .ok lv => [.wLed lv]
  else if topic = "sensors/lighting/mode" then
    [.wLMode (if pyStrip p.raw = "manual" then "manual" else "auto")]
  else if topic = "sensors/climate/temperature" then
    match temp_val p with
    | .error _ => []
    | .ok q => [.wTempC q]
  else if topic = "sensors/climate/humidity" then
    match hum_val p with
    | .error _ => []
    | .ok q => [.wHumidity q]
  else if topic = "sensors/climate/fan_state" then
    match fan_val p with
    | .error _ => []
    | .ok fmb => [.wFan fmb.1, .wCMode fmb.2.1, .wComfortBand fmb.2.2]
  else if topic = "sensors/air/quality_raw" then
    match aq_raw_val p with
    | .error _ => []
    | .ok n => [.wAqRaw n]
  else if topic = "sensors/air/quality_status" then
    match aq_status_val p with
    | .error _ => []
    | .ok v => [.wAqStatus v]
  else if topic = "ai/presence/detection" then
    [.wAiPresence (pyLower (pyStrip p.raw) == "true"), .wAiTimestamp now,
     .wCPresence (pyLower (pyStrip p.raw) == "true")]
  else if topic = "ai/presence/count" then
    match count_val p with
    | .error _ => []
    | .ok n => [.wAiPeopleCount n, .wAiTimestamp now]
  else if topic = "ai/presence/confidence" then
    match conf_val p with
    | .error _ => []
    | .ok q => [.wAiConfidence q, .wAiTimestamp now]
  else []

/-- The static per-topic write footprint of the handler. -/
def topicWrites (topic : String) : List Field :=
  if topic = "sensors/lighting/brightness" then [.ldrRaw]
  else if topic = "sensors/lighting/led_state" then [.led]
  else if topic = "sensors/lighting/mode" then [.lmode]
  else if topic = "sensors/climate/temperature" then [.tempC]
  else if topic = "sensors/climate/humidity" then [.humidity]
  else if topic = "sensors/climate/fan_state" then [.fan, .cmode, .comfortBand]
  else if topic = "sensors/air/quality_raw" then [.aqRaw]
  else if topic = "sensors/air/quality_status" then [.aqStatus]
  else if topic = "ai/presence/detection" then
    [.aiPresence, .aiTimestamp, .cpresence]
  else if topic = "ai/presence/count" then [.aiPeopleCount, .aiTimestamp]
  else if topic = "ai/presence/confidence" then [.aiConfidence, .aiTimestamp]
  else []

/-- A network oracle on which every `requests.patch` attempt raises. -/
def po_fail : Nat → PatchOutcome := fun _ => .raise .requestError

/-- Truth of one store in a snapshot: the written value is what the
snapshot holds for the written field. -/
def holdsW (w : FWrite) (st : BridgeState) : Prop :=
  match w with
  | .wLdrRaw v => st.lighting.ldrRaw = some v
  | .wLed v => st.lighting.led = v
  | .wLMode v => st.lighting.mode = v
  | .wAiPresence v => st.lighting.ai_presence = v
  | .wAiPeopleCount v => st.lighting.ai_people_count = v
  | .wAiConfidence v => st.lighting.ai_confidence = v
  | .wAiTimestamp v => st.lighting.ai_timestamp = v
  | .wTempC v => st.climate.tempC = some v
  | .wHumidity v => st.climate.humidity = some v
  | .wFan v => st.climate.fan = v
  | .wCMode v => st.climate.mode = v
  | .wComfortBand v => st.climate.comfortBand = v
  | .wAqRaw v => st.climate.aqRaw = some v
  | .wAqStatus v => st.climate.aqStatus = v
  | .wCPresence v => st.climate.presence = v

/-- Agreement of two snapshots on one room-state field. -/
def fieldEq (f : Field) (s1 s2 : BridgeState) : Prop :=
  match f with
  | .ldrRaw => s1.lighting.ldrRaw = s2.lighting.ldrRaw
  | .led => s1.lighting.led = s2.lighting.led
  | .lmode => s1.lighting.mode = s2.lighting.mode
  | .aiPresence => s1.lighting.ai_presence = s2.lighting.ai_presence
  | .aiPeopleCount => s1.lighting.ai_people_count = s2.lighting.ai_people_count
  | .aiConfidence => s1.lighting.ai_confidence = s2.lighting.ai_confidence
  | .aiTimestamp => s1.lighting.ai_timestamp = s2.lighting.ai_timestamp
  | .tempC => s1.climate.tempC = s2.climate.tempC
  | .humidity => s1.climate.humidity = s2.climate.humidity
  | .fan => s1.climate.fan = s2.climate.fan
  | .cmode => s1.climate.mode = s2.climate.mode
  | .comfortBand => s1.climate.comfortBand = s2.climate.comfortBand
  | .aqRaw => s1.climate.aqRaw = s2.climate.aqRaw
  | .aqStatus => s1.climate.aqStatus = s2.climate.aqStatus
  | .cpresence => s1.climate.presence = s2.climate.presence

/-! ## Trace model of the `with lock:` critical sections

Each `on_message` invocation runs, inside the interpreter, as
`lock.acquire(); <field stores>; lock.release()` (the `with lock:` blocks at
lines 86, 91, 98, 105, 110, 115, 127, 132, 140, 149 and 154).  A
configuration holds the remaining actions of every concurrent invocation,
the current lock holder and the shared room state; a scheduler step picks an
invocation and executes its next action when it is enabled (a store never
consults the lock — mutual exclusion comes only from `acquire` blocking). -/

inductive PAct : Type
  | acq : PAct
  | rel : PAct
  | wr (w : FWrite) : PAct

structure CConf : Type where
  progs : List (List PAct)
  lockBy : Option Nat
  st : BridgeState

/-- Execute the next action of invocation `i`, if it is enabled. -/
def cstep (c : CConf) (i : Nat) : Option CConf :=
  match c.progs[i]? with
  | none => none
  | some [] => none
  | some (PAct.acq :: rest) =>
    match c.lockBy with
    | none => some ⟨c.progs.set i rest, some i, c.st⟩
    | some _ => none
  | some (PAct.rel :: rest) =>
    match c.lockBy with
    | some j => if j = i then some ⟨c.progs.set i rest, none, c.st⟩ else none
    | none => none
  | some (PAct.wr w :: rest) =>
    some ⟨c.progs.set i rest, c.lockBy, applyW w c.st⟩

/-- Run a schedule: the list of invocation indices chosen by the scheduler. -/
def crun (c : CConf) : List Nat → Option CConf
  | [] => some c
  | i :: cs =>
    match cstep c i with
    | none => none
    | some c2 => crun c2 cs

/-- The action sequence of one `Apply` invocation with stores `ws`:
acquire the per-room lock, merge the fields, release. -/
def threadProg (ws : List FWrite) : List PAct :=
  PAct.acq :: (ws.map PAct.wr ++ [PAct.rel])

def catList : List (List α) → List α
  | [] => []
  | l :: ls => l ++ catList ls

def wsAt (wss : List (List FWrite)) (i : Nat) : List FWrite :=
  wss[i]?.getD []

/-- The schedule that runs invocation blocks whole, one after the other, in
the order given. -/
def blockSched (wss : List (List FWrite)) (order : List Nat) : List Nat :=
  catList (order.map (fun i => List.replicate ((wsAt wss i).length + 2) i))

/-- Remaining program of an invocation that has not started (`some ws`) or
has finished (`none`). -/
def progOf : Option (List FWrite) → List PAct
  | none => []
  | some ws => threadProg ws

def remAt (rem : List (Option (List FWrite))) (i : Nat) : List FWrite :=
  (rem[i]?.getD none).getD []

/-- Every invocation other than `i` is finished or still waiting at its
`acquire`. -/
def acqShaped (progs : List (List PAct)) (i : Nat) : Prop :=
  ∀ j, j ≠ i → ∀ lp, progs[j]? = some lp →
    lp = [] ∨ ∃ a, lp = PAct.acq :: a

theorem patch_state_ok (s : LightingState) (o : PatchOutcome) :
    patch_state s o = .ok .jnull := by
  cases o <;> rfl

theorem patch_climate_state_ok (c : ClimateState) (o : PatchOutcome) :
    patch_climate_state c o = .ok .jnull := by
  cases o <;> rfl

theorem writes_brightness (p : Payload) (now : Int) (po : Nat → PatchOutcome)
    (st : BridgeState) :
    on_message "sensors/lighting/brightness" p now po st =
      applyWs (writesOf "sensors/lighting/brightness" p now) st := by
  cases hb : brightness_val p <;>
    simp [on_message, on_message_body, writesOf, hb, patch_state_ok,
      applyWs, applyW]

theorem writes_led (p : Payload) (now : Int) (po : Nat → PatchOutcome)
    (st : BridgeState) :
    on_message "sensors/lighting/led_state" p now po st =
      applyWs (writesOf "sensors/lighting/led_state" p now) st := by
  cases hb : led_val p <;>
    simp [on_message, on_message_body, writesOf, hb, patch_state_ok,
      applyWs, applyW]

theorem writes_mode (p : Payload) (now : Int) (po : Nat → PatchOutcome)
    (st : BridgeState) :
    on_message "sensors/lighting/mode" p now po st =
      applyWs (writesOf "sensors/lighting/mode" p now) st := by
  simp [on_message, on_message_body, writesOf, patch_state_ok,
    applyWs, applyW]

theorem writes_temp (p : Payload) (now : Int) (po : Nat → PatchOutcome)
    (st : BridgeState) :
    on_message "sensors/climate/temperature" p now po st =
      applyWs (writesOf "sensors/climate/temperature" p now) st := by
  cases hb : temp_val p <;>
    simp [on_message, on_message_body, writesOf, hb, patch_climate_state_ok,
      applyWs, applyW]

theorem writes_hum (p : Payload) (now : Int) (po : Nat → PatchOutcome)
    (st : BridgeState) :
    on_message "sensors/climate/humidity" p now po st =
      applyWs (writesOf "sensors/climate/humidity" p now) st := by
  cases hb : hum_val p <;>
    simp [on_message, on_message_body, writesOf, hb, patch_climate_state_ok,
      applyWs, applyW]

theorem writes_fan (p : Payload) (now : Int) (po : Nat → PatchOutcome)
    (st : BridgeState) :
    on_message "sensors/climate/fan_state" p now po st =
      applyWs (writesOf "sensors/climate/fan_state" p now) st := by
  cases hb : fan_val p <;>
    simp [on_message, on_message_body, writesOf, hb, patch_climate_state_ok,
      applyWs, applyW]

theorem writes_aq_raw (p : Payload) (now : Int) (po : Nat → PatchOutcome)
    (st : BridgeState) :
    on_message "sensors/air/quality_raw" p now po st =
      applyWs (writesOf "sensors/air/quality_raw" p now) st := by
  cases hb : aq_raw_val p <;>
    simp [on_message, on_message_body, writesOf, hb, patch_climate_state_ok,
      applyWs, applyW]

theorem writes_aq_status (p : Payload) (now : Int) (po : Nat → PatchOutcome)
    (st : BridgeState) :
    on_message "sensors/air/quality_status" p now po st =
      applyWs (writesOf "sensors/air/quality_status" p now) st := by
  cases hb : aq_status_val p <;>
    simp [on_message, on_message_body, writesOf, hb, patch_climate_state_ok,
      applyWs, applyW]

theorem writes_detection (p : Payload) (now : Int) (po : Nat → PatchOutcome)
    (st : BridgeState) :
    on_message "ai/presence/detection" p now po st =
      applyWs (writesOf "ai/presence/detection" p now) st := by
  simp [on_message, on_message_body, writesOf, patch_state_ok,
    patch_climate_state_ok, applyWs, applyW]

theorem writes_count (p : Payload) (now : Int) (po : Nat → PatchOutcome)
    (st : BridgeState) :
    on_message "ai/presence/count" p now po st =
      applyWs (writesOf "ai/presence/count" p now) st := by
  cases hb : count_val p <;>
    simp [on_message, on_message_body, writesOf, hb, patch_state_ok,
      applyWs, applyW]

theorem writes_conf (p : Payload) (now : Int) (po : Nat → PatchOutcome)
    (st : BridgeState) :
    on_message "ai/presence/confidence" p now po st =
      applyWs (writesOf "ai/presence/confidence" p now) st := by
  cases hb : conf_val p <;>
    simp [on_message, on_message_body, writesOf, hb, patch_state_ok,
      applyWs, applyW]

/-- The handler is exactly the application of its write list. -/
theorem on_message_writes (topic : String) (p : Payload) (now : Int)
    (po : Nat → PatchOutcome) (st : BridgeState) :
    on_message topic p now po st = applyWs (writesOf topic p now) st := by
  by_cases h1 : topic = "sensors/lighting/brightness"
  · subst h1; exact writes_brightness p now po st
  by_cases h2 : topic = "sensors/lighting/led_state"
  · subst h2; exact writes_led p now po st
  by_cases h3 : topic = "sensors/lighting/mode"
  · subst h3; exact writes_mode p now po st
  by_cases h4 : topic = "sensors/climate/temperature"
  · subst h4; exact writes_temp p now po st
  by_cases h5 : topic = "sensors/climate/humidity"
  · subst h5; exact writes_hum p now po st
  by_cases h6 : topic = "sensors/climate/fan_state"
  · subst h6; exact writes_fan p now po st
  by_cases h7 : topic = "sensors/air/quality_raw"
  · subst h7; exact writes_aq_raw p now po st
  by_cases h8 : topic = "sensors/air/quality_status"
  · subst h8; exact writes_aq_status p now po st
  by_cases h9 : topic = "ai/presence/detection"
  · subst h9; exact writes_detection p now po st
  by_cases h10 : topic = "ai/presence/count"
  · subst h10; exact writes_count p now po st
  by_cases h11 : topic = "ai/presence/confidence"
  · subst h11; exact writes_conf p now po st
  simp [on_message, on_message_body, writesOf, h1, h2, h3, h4, h5, h6, h7,
    h8, h9, h10, h11, applyWs]

/-- Stores to distinct fields commute. -/
theorem applyW_comm (w1 w2 : FWrite) (st : BridgeState)
    (h : fieldOfW w1 ≠ fieldOfW w2) :
    applyW w1 (applyW w2 st) = applyW w2 (applyW w1 st) := by
  cases w1 <;> cases w2 <;> first
    | rfl
    | exact absurd rfl h

theorem applyW_applyWs_comm (w : FWrite) (l : List FWrite) (st : BridgeState)
    (h : ∀ w2 ∈ l, fieldOfW w ≠ fieldOfW w2) :
    applyWs l (applyW w st) = applyW w (applyWs l st) := by
  induction l generalizing st with
  | nil => rfl
  | cons w2 l ih =>
    have hw2 : fieldOfW w ≠ fieldOfW w2 := h w2 (by simp)
    calc applyWs (w2 :: l) (applyW w st)
        = applyWs l (applyW w2 (applyW w st)) := rfl
      _ = applyWs l (applyW w (applyW w2 st)) := by
          rw [applyW_comm w2 w st (fun he => hw2 he.symm)]
      _ = applyW w (applyWs l (applyW w2 st)) := by
          exact ih (applyW w2 st) (fun w3 h3 => h w3 (by simp [h3]))
      _ = applyW w (applyWs (w2 :: l) st) := rfl

/-- Write lists over disjoint fields commute. -/
theorem applyWs_comm (l1 l2 : List FWrite) (st : BridgeState)
    (h : ∀ w1 ∈ l1, ∀ w2 ∈ l2, fieldOfW w1 ≠ fieldOfW w2) :
    applyWs l2 (applyWs l1 st) = applyWs l1 (applyWs l2 st) := by
  induction l1 generalizing st with
  | nil => rfl
  | cons w l1 ih =>
    have hw : ∀ w2 ∈ l2, fieldOfW w ≠ fieldOfW w2 := h w (by simp)
    calc applyWs l2 (applyWs (w :: l1) st)
        = applyWs l2 (applyWs l1 (applyW w st)) := rfl
      _ = applyWs l1 (applyWs l2 (applyW w st)) := by
          exact ih (applyW w st) (fun w1 h1 w2 h2 => h w1 (by simp [h1]) w2 h2)
      _ = applyWs l1 (applyW w (applyWs l2 st)) := by
          rw [applyW_applyWs_comm w l2 st hw]
      _ = applyWs (w :: l1) (applyWs l2 st) := rfl

/-- Every store of a message lands in the static footprint of its topic. -/
theorem writesOf_footprint (topic : String) (p : Payload) (now : Int) :
    ∀ w ∈ writesOf topic p now, fieldOfW w ∈ topicWrites topic := by
  intro w hw
  by_cases h1 : topic = "sensors/lighting/brightness"
  · subst h1
    cases hb : brightness_val p <;> simp [writesOf, hb] at hw
    simp [hw, fieldOfW, topicWrites]
  by_cases h2 : topic = "sensors/lighting/led_state"
  · subst h2
    cases hb : led_val p <;> simp [writesOf, hb] at hw
    simp [hw, fieldOfW, topicWrites]
  by_cases h3 : topic = "sensors/lighting/mode"
  · subst h3
    simp [writesOf] at hw
    simp [hw, fieldOfW, topicWrites]
  by_cases h4 : topic = "sensors/climate/temperature"
  · subst h4
    cases hb : temp_val p <;> simp [writesOf, hb] at hw
    simp [hw, fieldOfW, topicWrites]
  by_cases h5 : topic = "sensors/climate/humidity"
  · subst h5
    cases hb : hum_val p <;> simp [writesOf, hb] at hw
    simp [hw, fieldOfW, topicWrites]
  by_cases h6 : topic = "sensors/climate/fan_state"
  · subst h6
    cases hb : fan_val p <;> simp [writesOf, hb] at hw
    rcases hw with h | h | h <;> simp [h, fieldOfW, topicWrites]
  by_cases h7 : topic = "sensors/air/quality_raw"
  · subst h7
    cases hb : aq_raw_val p <;> simp [writesOf, hb] at hw
    simp [hw, fieldOfW, topicWrites]
  by_cases h8 : topic = "sensors/air/quality_status"
  · subst h8
    cases hb : aq_status_val p <;> simp [writesOf, hb] at hw
    simp [hw, fieldOfW, topicWrites]
  by_cases h9 : topic = "ai/presence/detection"
  · subst h9
    simp [writesOf] at hw
    rcases hw with h | h | h <;> simp [h, fieldOfW, topicWrites]
  by_cases h10 : topic = "ai/presence/count"
  · subst h10
    cases hb : count_val p <;> simp [writesOf, hb] at hw
    rcases hw with h | h <;> simp [h, fieldOfW, topicWrites]
  by_cases h11 : topic = "ai/presence/confidence"
  · subst h11
    cases hb : conf_val p <;> simp [writesOf, hb] at hw
    rcases hw with h | h <;> simp [h, fieldOfW, topicWrites]
  simp [writesOf, h1, h2, h3, h4, h5, h6, h7, h8, h9, h10, h11] at hw

theorem applyW_led (w : FWrite) (st : BridgeState)
    (h : fieldOfW w ≠ Field.led) :
    (applyW w st).lighting.led = st.lighting.led := by
  cases w <;> first
    | rfl
    | exact absurd rfl h

theorem applyWs_led (l : List FWrite) (st : BridgeState)
    (h : ∀ w ∈ l, fieldOfW w ≠ Field.led) :
    (applyWs l st).lighting.led = st.lighting.led := by
  induction l generalizing st with
  | nil => rfl
  | cons w l ih =>
    calc (applyWs (w :: l) st).lighting.led
        = (applyWs l (applyW w st)).lighting.led := rfl
      _ = (applyW w st).lighting.led :=
          ih (applyW w st) (fun w2 h2 => h w2 (by simp [h2]))
      _ = st.lighting.led := applyW_led w st (h w (by simp))

theorem applyW_lmode (w : FWrite) (st : BridgeState)
    (h : fieldOfW w ≠ Field.lmode) :
    (applyW w st).lighting.mode = st.lighting.mode := by
  cases w <;> first
    | rfl
    | exact absurd rfl h

theorem applyWs_lmode (l : List FWrite) (st : BridgeState)
    (h : ∀ w ∈ l, fieldOfW w ≠ Field.lmode) :
    (applyWs l st).lighting.mode = st.lighting.mode := by
  induction l generalizing st with
  | nil => rfl
  | cons w l ih =>
    calc (applyWs (w :: l) st).lighting.mode
        = (applyWs l (applyW w st)).lighting.mode := rfl
      _ = (applyW w st).lighting.mode :=
          ih (applyW w st) (fun w2 h2 => h w2 (by simp [h2]))
      _ = st.lighting.mode := applyW_lmode w st (h w (by simp))

theorem fieldEq_trans (f : Field) (a b c : BridgeState)
    (h1 : fieldEq f a b) (h2 : fieldEq f b c) : fieldEq f a c := by
  cases f <;> exact h1.trans h2

theorem applyW_fieldEq (f : Field) (w : FWrite) (st : BridgeState)
    (hne : fieldOfW w ≠ f) : fieldEq f (applyW w st) st := by
  cases f <;> cases w <;> first
    | exact absurd rfl hne
    | rfl

theorem applyWs_fieldEq (f : Field) (l : List FWrite) (st : BridgeState)
    (hne : ∀ w ∈ l, fieldOfW w ≠ f) : fieldEq f (applyWs l st) st := by
  induction l generalizing st with
  | nil => cases f <;> rfl
  | cons w l ih =>
    exact fieldEq_trans f _ _ _
      (ih (applyW w st) (fun w2 h2 => hne w2 (by simp [h2])))
      (applyW_fieldEq f w st (hne w (by simp)))

theorem led_topicWrites (topic : String)
    (h : Field.led ∈ topicWrites topic) :
    topic = "sensors/lighting/led_state" := by
  by_cases h1 : topic = "sensors/lighting/brightness"
  · subst h1; simp [topicWrites] at h
  by_cases h2 : topic = "sensors/lighting/led_state"
  · exact h2
  by_cases h3 : topic = "sensors/lighting/mode"
  · subst h3; simp [topicWrites] at h
  by_cases h4 : topic = "sensors/climate/temperature"
  · subst h4; simp [topicWrites] at h
  by_cases h5 : topic = "sensors/climate/humidity"
  · subst h5; simp [topicWrites] at h
  by_cases h6 : topic = "sensors/climate/fan_state"
  · subst h6; simp [topicWrites] at h
  by_cases h7 : topic = "sensors/air/quality_raw"
  · subst h7; simp [topicWrites] at h
  by_cases h8 : topic = "sensors/air/quality_status"
  · subst h8; simp [topicWrites] at h
  by_cases h9 : topic = "ai/presence/detection"
  · subst h9; simp [topicWrites] at h
  by_cases h10 : topic = "ai/presence/count"
  · subst h10; simp [topicWrites] at h
  by_cases h11 : topic = "ai/presence/confidence"
  · subst h11; simp [topicWrites] at h
  simp [topicWrites, h1, h2, h3, h4, h5, h6, h7, h8, h9, h10, h11] at h

theorem lmode_topicWrites (topic : String)
    (h : Field.lmode ∈ topicWrites topic) :
    topic = "sensors/lighting/mode" := by
  by_cases h1 : topic = "sensors/lighting/brightness"
  · subst h1; simp [topicWrites] at h
  by_cases h2 : topic = "sensors/lighting/led_state"
  · subst h2; simp [topicWrites] at h
  by_cases h3 : topic = "sensors/lighting/mode"
  · exact h3
  by_cases h4 : topic = "sensors/climate/temperature"
  · subst h4; simp [topicWrites] at h
  by_cases h5 : topic = "sensors/climate/humidity"
  · subst h5; simp [topicWrites] at h
  by_cases h6 : topic = "sensors/climate/fan_state"
  · subst h6; simp [topicWrites] at h
  by_cases h7 : topic = "sensors/air/quality_raw"
  · subst h7; simp [topicWrites] at h
  by_cases h8 : topic = "sensors/air/quality_status"
  · subst h8; simp [topicWrites] at h
  by_cases h9 : topic = "ai/presence/detection"
  · subst h9; simp [topicWrites] at h
  by_cases h10 : topic = "ai/presence/count"
  · subst h10; simp [topicWrites] at h
  by_cases h11 : topic = "ai/presence/confidence"
  · subst h11; simp [topicWrites] at h
  simp [topicWrites, h1, h2, h3, h4, h5, h6, h7, h8, h9, h10, h11] at h

/-- Any `wLMode` store carries the value "manual" or "auto": only the
`sensors/lighting/mode` branch writes the lighting mode, and it normalizes
the payload. -/
theorem writesOf_lmode_val (t : String) (p : Payload) (n : Int) :
    ∀ w ∈ writesOf t p n, ∀ v, w = FWrite.wLMode v →
      v = "manual" ∨ v = "auto" := by
  intro w hw v hv
  subst hv
  have hf : Field.lmode ∈ topicWrites t := by
    have h := writesOf_footprint t p n _ hw
    simpa [fieldOfW] using h
  have ht := lmode_topicWrites t hf
  subst ht
  simp [writesOf] at hw
  by_cases hmm : pyStrip p.raw = "manual" <;> simp [hmm] at hw <;> simp [hw]

theorem applyWs_mode_inv (l : List FWrite) (st : BridgeState)
    (hv : ∀ w ∈ l, ∀ v, w = FWrite.wLMode v → v = "manual" ∨ v = "auto")
    (h : st.lighting.mode = "auto" ∨ st.lighting.mode = "manual") :
    (applyWs l st).lighting.mode = "auto" ∨
      (applyWs l st).lighting.mode = "manual" := by
  induction l generalizing st with
  | nil => exact h
  | cons w l ih =>
    have hstep : (applyW w st).lighting.mode = "auto" ∨
        (applyW w st).lighting.mode = "manual" := by
      cases w with
      | wLMode v =>
        rcases hv _ (by simp) v rfl with h1 | h1 <;> simp [applyW, h1]
      | wLdrRaw v => rw [applyW_lmode _ _ (by simp [fieldOfW])]; exact h
      | wLed v => rw [applyW_lmode _ _ (by simp [fieldOfW])]; exact h
      | wAiPresence v => rw [applyW_lmode _ _ (by simp [fieldOfW])]; exact h
      | wAiPeopleCount v => rw [applyW_lmode _ _ (by simp [fieldOfW])]; exact h
      | wAiConfidence v => rw [applyW_lmode _ _ (by simp [fieldOfW])]; exact h
      | wAiTimestamp v => rw [applyW_lmode _ _ (by simp [fieldOfW])]; exact h
      | wTempC v => rw [applyW_lmode _ _ (by simp [fieldOfW])]; exact h
      | wHumidity v => rw [applyW_lmode _ _ (by simp [fieldOfW])]; exact h
      | wFan v => rw [applyW_lmode _ _ (by simp [fieldOfW])]; exact h
      | wCMode v => rw [applyW_lmode _ _ (by simp [fieldOfW])]; exact h
      | wComfortBand v => rw [applyW_lmode _ _ (by simp [fieldOfW])]; exact h
      | wAqRaw v => rw [applyW_lmode _ _ (by simp [fieldOfW])]; exact h
      | wAqStatus v => rw [applyW_lmode _ _ (by simp [fieldOfW])]; exact h
      | wCPresence v => rw [applyW_lmode _ _ (by simp [fieldOfW])]; exact h
    exact ih (applyW w st) (fun w2 h2 v hv2 => hv w2 (by simp [h2]) v hv2)
      hstep

theorem on_message_mode_inv (t : String) (p : Payload) (n : Int)
    (po : Nat → PatchOutcome) (st : BridgeState)
    (h : st.lighting.mode = "auto" ∨ st.lighting.mode = "manual") :
    (on_message t p n po st).lighting.mode = "auto" ∨
      (on_message t p n po st).lighting.mode = "manual" := by
  rw [on_message_writes]
  exact applyWs_mode_inv _ st (writesOf_lmode_val t p n) h

theorem processMsgs_mode_inv (ms : List InMsg) (st : BridgeState)
    (h : st.lighting.mode = "auto" ∨ st.lighting.mode = "manual") :
    (processMsgs ms st).lighting.mode = "auto" ∨
      (processMsgs ms st).lighting.mode = "manual" := by
  induction ms generalizing st with
  | nil => exact h
  | cons m ms ih =>
    exact ih (on_message m.topic m.payload m.now m.po st)
      (on_message_mode_inv m.topic m.payload m.now m.po st h)

end Bridge

open Bridge

/-! ## Claims about the bridge -/

/-- Claim C2, counterexample: with the stored LED state on=true pwm=128, a
`sensors/lighting/led_state` message whose decoded JSON object omits both
the `on` and `pwm` keys overwrites the stored LED state with the defaults
on=false pwm=0, so a missing field does clear a previously set field. -/
theorem C2_counterexample :
    (on_message "sensors/lighting/led_state"
          ⟨"", some (.jobj [])⟩ 0 po_fail
          ⟨{ init_state with led := { «on» := true, pwm := 128 } },
            init_climate_state⟩).lighting.led =
        { «on» := false, pwm := 0 } ∧
      ({ init_state with led := { «on» := true, pwm := 128 } }).led =
        { «on» := true, pwm := 128 } :=
  ⟨rfl, rfl⟩

/-- Claim C2 (amended): the merge is per-topic, not per-key.  A message
leaves every field outside its topic's footprint unchanged (in particular no
other topic ever touches the LED state), but a `sensors/lighting/led_state`
message replaces the whole `led` sub-object, substituting the defaults
`False` and `0` for missing `on`/`pwm` keys; `sensors/climate/fan_state`
behaves likewise for `on`, `pwm`, `mode` and `band`. -/
theorem C2_merge_by_topic_with_defaults :
    (∀ (p : Payload) (now : Int) (po : Nat → PatchOutcome)
        (st : BridgeState) (fields : List (String × JVal)) (pw : Int),
        p.json = some (.jobj fields) →
        pyint (jget fields "pwm" (.jint 0)) = .ok pw →
        on_message "sensors/lighting/led_state" p now po st =
          { st with lighting := { st.lighting with
              led := { «on» := pybool (jget fields "on" (.jbool false)),
                       pwm := pw } } }) ∧
      (∀ (p : Payload) (now : Int) (po : Nat → PatchOutcome)
        (st : BridgeState) (fields : List (String × JVal)) (pw : Int),
        p.json = some (.jobj fields) →
        pyint (jget fields "pwm" (.jint 0)) = .ok pw →
        on_message "sensors/climate/fan_state" p now po st =
          { st with climate := { st.climate with
              fan := { «on» := pybool (jget fields "on" (.jbool false)),
                       pwm := pw },
              mode := jget fields "mode" (.jstr "auto"),
              comfortBand := jget fields "band" (.jstr "Low") } }) ∧
      ∀ (topic : String) (p : Payload) (now : Int) (po : Nat → PatchOutcome)
        (st : BridgeState) (f : Field),
        f ∉ topicWrites topic →
        fieldEq f (on_message topic p now po st) st := by
  refine ⟨?_, ?_, ?_⟩
  · intro p now po st fields pw hj hp
    rw [writes_led]
    simp [writesOf, led_val, hj, hp, applyWs, applyW]
  · intro p now po st fields pw hj hp
    rw [writes_fan]
    simp [writesOf, fan_val, hj, hp, applyWs, applyW]
  · intro topic p now po st f hf
    rw [on_message_writes]
    refine applyWs_fieldEq f _ st (fun w hw he => hf ?_)
    have h2 := writesOf_footprint topic p now w hw
    rwa [he] at h2

/-- Witness for C2 at concrete inputs: a led_state message with only `on`
present resets pwm to 0, a fan_state message with an empty object resets
the fan to off/0 and mode/band to 'auto'/'Low', and a brightness message
leaves the LED state alone. -/
theorem C2_witness :
    on_message "sensors/lighting/led_state"
        ⟨"", some (.jobj [("on", .jbool true)])⟩ 0 po_fail initBridge =
      { initBridge with lighting := { init_state with
          led := { «on» := true, pwm := 0 } } } ∧
    on_message "sensors/climate/fan_state" ⟨"", some (.jobj [])⟩ 0 po_fail
        ⟨init_state, { init_climate_state with
          fan := { «on» := true, pwm := 77 }, mode := .jstr "manual",
          comfortBand := .jstr "High" }⟩ =
      ⟨init_state, { init_climate_state with
          fan := { «on» := false, pwm := 0 }, mode := .jstr "auto",
          comfortBand := .jstr "Low" }⟩ ∧
    fieldEq Field.led
      (on_message "sensors/lighting/brightness" ⟨"7", none⟩ 0 po_fail
        initBridge) initBridge :=
  ⟨C2_merge_by_topic_with_defaults.1 ⟨"", some (.jobj [("on", .jbool true)])⟩
      0 po_fail initBridge [("on", .jbool true)] 0 rfl rfl,
    C2_merge_by_topic_with_defaults.2.1 ⟨"", some (.jobj [])⟩ 0 po_fail
      ⟨init_state, { init_climate_state with
        fan := { «on» := true, pwm := 77 }, mode := .jstr "manual",
        comfortBand := .jstr "High" }⟩ [] 0 rfl rfl,
    C2_merge_by_topic_with_defaults.2.2 "sensors/lighting/brightness"
      ⟨"7", none⟩ 0 po_fail initBridge Field.led (by decide)⟩

/-- Claim C5, counterexample: when the single `requests.patch` attempt
raises, `patch_state` does not return `False` — it swallows the exception
and returns `None` (Python's implicit return value). -/
theorem C5_counterexample :
    patch_state init_state (.raise .requestError) = .ok .jnull ∧
      patch_state init_state (.raise .requestError) ≠
        .ok (.jbool false) := by
  constructor
  · rfl
  · intro h
    rw [patch_state_ok] at h
    injection h with h2
    exact JVal.noConfusion h2

/-- Claim C5 (amended): each patch function makes exactly one attempt (no
retries) with a fixed 5-second timeout; whatever the attempt's outcome, it
raises nothing to its caller and returns `None` rather than a boolean, the
room state produced by a message is independent of the network outcomes,
and the ingestion loop goes on to process the next inbound message. -/
theorem C5_publish_failure_contained :
    (∀ (s : LightingState) (o : PatchOutcome),
        patch_state s o = .ok .jnull) ∧
      (∀ (c : ClimateState) (o : PatchOutcome),
        patch_climate_state c o = .ok .jnull) ∧
      (∀ (topic : String) (p : Payload) (now : Int)
          (po po2 : Nat → PatchOutcome) (st : BridgeState),
          on_message topic p now po st = on_message topic p now po2 st) ∧
      ∀ (m : InMsg) (rest : List InMsg) (st : BridgeState),
        processMsgs (m :: rest) st =
          processMsgs rest (on_message m.topic m.payload m.now m.po st) := by
  refine ⟨patch_state_ok, patch_climate_state_ok, ?_, fun _ _ _ => rfl⟩
  intro topic p now po po2 st
  rw [on_message_writes, on_message_writes]

/-- Claim C7: two messages whose topics have disjoint write footprints
commute: processing A then B yields the same lighting and climate state as
processing B then A. -/
theorem C7_disjoint_topics_commute (tA tB : String) (pA pB : Payload)
    (nA nB : Int) (poA poB : Nat → PatchOutcome) (st : BridgeState)
    (hdisj : ∀ f ∈ topicWrites tA, f ∉ topicWrites tB) :
    on_message tB pB nB poB (on_message tA pA nA poA st) =
      on_message tA pA nA poA (on_message tB pB nB poB st) := by
  simp only [on_message_writes]
  refine applyWs_comm _ _ st (fun w1 h1 w2 h2 he => ?_)
  have hA := writesOf_footprint tA pA nA w1 h1
  have hB := writesOf_footprint tB pB nB w2 h2
  rw [← he] at hB
  exact hdisj (fieldOfW w1) hA hB

/-- Witness for C7 at concrete inputs: a brightness and a led_state
message (footprints {ldrRaw} and {led}). -/
theorem C7_witness :
    on_message "sensors/lighting/led_state"
        ⟨"", some (.jobj [("on", .jbool true), ("pwm", .jint 5)])⟩ 1 po_fail
        (on_message "sensors/lighting/brightness" ⟨"7", none⟩ 0 po_fail
          initBridge) =
      on_message "sensors/lighting/brightness" ⟨"7", none⟩ 0 po_fail
        (on_message "sensors/lighting/led_state"
          ⟨"", some (.jobj [("on", .jbool true), ("pwm", .jint 5)])⟩ 1
          po_fail initBridge) :=
  C7_disjoint_topics_commute "sensors/lighting/brightness"
    "sensors/lighting/led_state" ⟨"7", none⟩
    ⟨"", some (.jobj [("on", .jbool true), ("pwm", .jint 5)])⟩ 0 1 po_fail
    po_fail initBridge (by decide)

/-- Claim C9: after any sequence of inbound messages the lighting mode is
exactly "auto" or "manual", and a `sensors/lighting/mode` message sets it
to "manual" precisely when the stripped payload equals "manual", and to
"auto" for every other payload. -/
theorem C9_mode_normalization :
    (∀ ms : List InMsg,
        (processMsgs ms initBridge).lighting.mode = "auto" ∨
          (processMsgs ms initBridge).lighting.mode = "manual") ∧
      ∀ (p : Payload) (now : Int) (po : Nat → PatchOutcome)
        (st : BridgeState),
        (on_message "sensors/lighting/mode" p now po st).lighting.mode =
          if pyStrip p.raw = "manual" then "manual" else "auto" := by
  constructor
  · intro ms
    exact processMsgs_mode_inv ms initBridge (Or.inl rfl)
  · intro p now po st
    rw [writes_mode]
    by_cases hmm : pyStrip p.raw = "manual" <;>
      simp [writesOf, applyWs, applyW, hmm]

/-! ## Serialization of lock-protected merges (claim C8 support) -/

theorem listGet_set_self {α : Type} (l : List α) (i : Nat) (a : α)
    (h : i < l.length) : (l.set i a)[i]? = some a := by
  induction l generalizing i with
  | nil => simp at h
  | cons x xs ih =>
    cases i with
    | zero => simp
    | succ k => simpa using ih k (by simpa using h)

theorem listGet_set_other {α : Type} (l : List α) (i j : Nat) (a : α)
    (h : i ≠ j) : (l.set i a)[j]? = l[j]? := by
  induction l generalizing i j with
  | nil => rfl
  | cons x xs ih =>
    cases i with
    | zero =>
      cases j with
      | zero => exact absurd rfl h
      | succ k => simp
    | succ m =>
      cases j with
      | zero => simp
      | succ k => simpa using ih m k (by omega)

theorem listGet_lt {α : Type} (l : List α) (i : Nat) (a : α)
    (h : l[i]? = some a) : i < l.length := by
  induction l generalizing i with
  | nil => simp at h
  | cons x xs ih =>
    cases i with
    | zero => simp
    | succ k => simpa using ih k (by simpa using h)

theorem listGet_mem {α : Type} (l : List α) (i : Nat) (a : α)
    (h : l[i]? = some a) : a ∈ l := by
  induction l generalizing i with
  | nil => simp at h
  | cons x xs ih =>
    cases i with
    | zero => simp at h; simp [h]
    | succ k => exact List.mem_cons_of_mem x (ih k (by simpa using h))

theorem listMapSet {α β : Type} (f : α → β) (l : List α) (i : Nat) (a : α) :
    (l.map f).set i (f a) = (l.set i a).map f := by
  induction l generalizing i with
  | nil => rfl
  | cons x xs ih =>
    cases i with
    | zero => rfl
    | succ k => exact congrArg (List.cons (f x)) (ih k)

theorem catList_eq_flatten {α : Type} (l : List (List α)) :
    catList l = l.flatten := by
  induction l with
  | nil => rfl
  | cons x xs ih => simp [catList, ih]

theorem mem_catList {α : Type} (a : α) (l : List (List α)) :
    a ∈ catList l ↔ ∃ s ∈ l, a ∈ s := by
  rw [catList_eq_flatten]
  simp

/-- While invocation `i` holds the lock and every other invocation is
finished or still blocked at its `acquire`, a successful complete run must
schedule `i` for all of its remaining stores and its release, after which
the configuration is unlocked, `i` is finished and the stores are applied. -/
theorem lockedStuck (progs : List (List PAct)) (i j : Nat)
    (st : BridgeState) (hsh : acqShaped progs i) (hne : j ≠ i) :
    cstep ⟨progs, some i, st⟩ j = none := by
  rcases hj : progs[j]? with _ | lp
  · simp [cstep, hj]
  · rcases hsh j hne lp hj with rfl | ⟨a, rfl⟩
    · simp [cstep, hj]
    · simp [cstep, hj]

theorem lockedRun (l : List FWrite) (cs : List Nat)
    (progs : List (List PAct)) (i : Nat) (st : BridgeState) (fin : CConf)
    (hpi : progs[i]? = some (l.map PAct.wr ++ [PAct.rel]))
    (hsh : acqShaped progs i)
    (hrun : crun ⟨progs, some i, st⟩ cs = some fin)
    (hdone : ∀ lp ∈ fin.progs, lp = []) :
    ∃ cs2, cs = List.replicate (l.length + 1) i ++ cs2 ∧
      crun ⟨progs.set i [], none, applyWs l st⟩ cs2 = some fin := by
  induction l generalizing progs st cs with
  | nil =>
    cases cs with
    | nil =>
      obtain rfl : (⟨progs, some i, st⟩ : CConf) = fin :=
        Option.some.inj hrun
      have := hdone _ (listGet_mem progs i _ hpi)
      simp at this
    | cons j cs2 =>
      have hji : i = j := by
        by_contra hne
        have hstep := lockedStuck progs i j st hsh (fun he => hne he.symm)
        simp [crun, hstep] at hrun
      subst hji
      have hstep : cstep ⟨progs, some i, st⟩ i =
          some ⟨progs.set i [], none, st⟩ := by
        simp [cstep, hpi]
      refine ⟨cs2, rfl, ?_⟩
      simpa [crun, hstep] using hrun
  | cons w l ih =>
    cases cs with
    | nil =>
      obtain rfl : (⟨progs, some i, st⟩ : CConf) = fin :=
        Option.some.inj hrun
      have := hdone _ (listGet_mem progs i _ hpi)
      simp at this
    | cons j cs1 =>
      have hji : i = j := by
        by_contra hne
        have hstep := lockedStuck progs i j st hsh (fun he => hne he.symm)
        simp [crun, hstep] at hrun
      subst hji
      have hstep : cstep ⟨progs, some i, st⟩ i =
          some ⟨progs.set i (l.map PAct.wr ++ [PAct.rel]), some i,
            applyW w st⟩ := by
        simp [cstep, hpi]
      have hrun1 : crun ⟨progs.set i (l.map PAct.wr ++ [PAct.rel]), some i,
          applyW w st⟩ cs1 = some fin := by
        simpa [crun, hstep] using hrun
      have hlen : i < progs.length := listGet_lt progs i _ hpi
      have hpi1 : (progs.set i (l.map PAct.wr ++ [PAct.rel]))[i]? =
          some (l.map PAct.wr ++ [PAct.rel]) :=
        listGet_set_self progs i _ hlen
      have hsh1 : acqShaped (progs.set i (l.map PAct.wr ++ [PAct.rel])) i := by
        intro j hj lp hlp
        rw [listGet_set_other progs i j _ (fun he => hj he.symm)] at hlp
        exact hsh j hj lp hlp
      obtain ⟨cs2, hcs1, hrun2⟩ := ih cs1 _ (applyW w st) hpi1 hsh1 hrun1
      refine ⟨cs2, by simp [hcs1, List.replicate_succ], ?_⟩
      rw [List.set_set] at hrun2
      exact hrun2

theorem applyWs_append (a b : List FWrite) (st : BridgeState) :
    applyWs (a ++ b) st = applyWs b (applyWs a st) := by
  simp [applyWs, List.foldl_append]

/-- Base case of the serialization argument: an empty schedule can only be
complete when every invocation was already finished. -/
theorem serialRunNil (rem : List (Option (List FWrite))) (st : BridgeState)
    (fin : CConf)
    (hrun : crun ⟨rem.map progOf, none, st⟩ [] = some fin)
    (hdone : ∀ lp ∈ fin.progs, lp = []) :
    ∃ order : List Nat,
      order.Nodup ∧
      (∀ i ∈ order, ∃ ws, rem[i]? = some (some ws)) ∧
      (∀ i ws, rem[i]? = some (some ws) → i ∈ order) ∧
      ([] : List Nat) = catList (order.map (fun i =>
        List.replicate ((remAt rem i).length + 2) i)) ∧
      fin.st = applyWs (catList (order.map (fun i => remAt rem i))) st := by
  obtain rfl : (⟨rem.map progOf, none, st⟩ : CConf) = fin :=
    Option.some.inj hrun
  refine ⟨[], List.nodup_nil, by simp, ?_, rfl, rfl⟩
  intro i ws hws
  exfalso
  have hp : (rem.map progOf)[i]? = some (progOf (some ws)) := by
    rw [List.getElem?_map, hws]
    rfl
  have := hdone _ (listGet_mem _ i _ hp)
  simp [progOf, threadProg] at this

/-- Serialization: a complete lock-valid run from an unlocked configuration
of not-yet-started or finished invocations executes whole invocations one
after the other: the schedule is a concatenation of per-invocation blocks
over some enumeration `order` of the unfinished invocations, and the final
state applies their store lists in that order. -/
theorem serialRun (n : Nat) (cs : List Nat) (hlen : cs.length ≤ n)
    (rem : List (Option (List FWrite))) (st : BridgeState) (fin : CConf)
    (hrun : crun ⟨rem.map progOf, none, st⟩ cs = some fin)
    (hdone : ∀ lp ∈ fin.progs, lp = []) :
    ∃ order : List Nat,
      order.Nodup ∧
      (∀ i ∈ order, ∃ ws, rem[i]? = some (some ws)) ∧
      (∀ i ws, rem[i]? = some (some ws) → i ∈ order) ∧
      cs = catList (order.map (fun i =>
        List.replicate ((remAt rem i).length + 2) i)) ∧
      fin.st = applyWs (catList (order.map (fun i => remAt rem i))) st := by
  induction n generalizing cs rem st with
  | zero =>
    obtain rfl : cs = [] := List.eq_nil_of_length_eq_zero
      (Nat.le_zero.mp hlen)
    exact serialRunNil rem st fin hrun hdone
  | succ n ih =>
    cases cs with
    | nil => exact serialRunNil rem st fin hrun hdone
    | cons j cs1 =>
      rcases hj : rem[j]? with _ | ows
      · exfalso
        have hp : (rem.map progOf)[j]? = none := by
          rw [List.getElem?_map, hj]
          rfl
        simp [crun, cstep, hp] at hrun
      rcases ows with _ | ws
      · exfalso
        have hp : (rem.map progOf)[j]? = some [] := by
          rw [List.getElem?_map, hj]
          rfl
        simp [crun, cstep, hp] at hrun
      have hp : (rem.map progOf)[j]? = some (threadProg ws) := by
        rw [List.getElem?_map, hj]
        rfl
      have hstep : cstep ⟨rem.map progOf, none, st⟩ j =
          some ⟨(rem.map progOf).set j (ws.map PAct.wr ++ [PAct.rel]),
            some j, st⟩ := by
        simp [cstep, hp, threadProg]
      have hrun1 : crun ⟨(rem.map progOf).set j
          (ws.map PAct.wr ++ [PAct.rel]), some j, st⟩ cs1 = some fin := by
        simpa [crun, hstep] using hrun
      have hjlt : j < rem.length := by
        have := listGet_lt _ j _ hp
        simpa using this
      have hpi : ((rem.map progOf).set j
          (ws.map PAct.wr ++ [PAct.rel]))[j]? =
          some (ws.map PAct.wr ++ [PAct.rel]) :=
        listGet_set_self _ j _ (by simpa using hjlt)
      have hsh : acqShaped ((rem.map progOf).set j
          (ws.map PAct.wr ++ [PAct.rel])) j := by
        intro k hk lp hlp
        rw [listGet_set_other _ j k _ (fun he => hk he.symm),
          List.getElem?_map] at hlp
        rcases hrk : rem[k]? with _ | owk
        · rw [hrk] at hlp
          cases hlp
        · rw [hrk] at hlp
          rcases owk with _ | wsk
          · left
            have : lp = progOf none := (Option.some.inj hlp).symm
            simpa [progOf] using this
          · right
            refine ⟨wsk.map PAct.wr ++ [PAct.rel], ?_⟩
            have : lp = progOf (some wsk) := (Option.some.inj hlp).symm
            simpa [progOf, threadProg] using this
      obtain ⟨cs2, hcs1, hrun2⟩ :=
        lockedRun ws cs1 _ j st fin hpi hsh hrun1 hdone
      have hprogs2 : ((rem.map progOf).set j
          (ws.map PAct.wr ++ [PAct.rel])).set j [] =
          (rem.set j none).map progOf := by
        rw [List.set_set]
        have : ([] : List PAct) = progOf none := rfl
        rw [this, listMapSet]
      rw [hprogs2] at hrun2
      have hlen2 : cs2.length ≤ n := by
        have h1 : cs1.length = (ws.length + 1) + cs2.length := by
          simp [hcs1]
        have h2 : (j :: cs1).length ≤ n + 1 := hlen
        simp at h2
        omega
      obtain ⟨order2, hnd2, hmem2, hcomp2, hsched2, hst2⟩ :=
        ih cs2 hlen2 (rem.set j none) (applyWs ws st) hrun2
      have hremj : (rem.set j none)[j]? = some none :=
        listGet_set_self rem j none hjlt
      have hne : ∀ i ∈ order2, i ≠ j := by
        intro i hi he
        obtain ⟨ws', hws'⟩ := hmem2 i hi
        rw [he, hremj] at hws'
        cases Option.some.inj hws'
      refine ⟨j :: order2, ?_, ?_, ?_, ?_, ?_⟩
      · simp only [List.nodup_cons]
        exact ⟨fun hj2 => hne j hj2 rfl, hnd2⟩
      · intro i hi
        rcases List.mem_cons.mp hi with rfl | hi2
        · exact ⟨ws, hj⟩
        · obtain ⟨ws', hws'⟩ := hmem2 i hi2
          rw [listGet_set_other rem j i none
            (fun he => hne i hi2 he.symm)] at hws'
          exact ⟨ws', hws'⟩
      · intro i ws' hws'
        by_cases hij : i = j
        · exact hij ▸ List.mem_cons_self j order2
        · refine List.mem_cons_of_mem j (hcomp2 i ws' ?_)
          rw [listGet_set_other rem j i none (fun he => hij he.symm)]
          exact hws'
      · have hmapeq : order2.map (fun i =>
            List.replicate ((remAt (rem.set j none) i).length + 2) i) =
            order2.map (fun i =>
              List.replicate ((remAt rem i).length + 2) i) := by
          refine List.map_congr_left (fun i hi => ?_)
          rw [remAt, listGet_set_other rem j i none
            (fun he => hne i hi he.symm)]
          rfl
        have hremAtj : remAt rem j = ws := by
          simp [remAt, hj]
        simp only [List.map_cons, catList, hremAtj]
        rw [← hmapeq, ← hsched2, hcs1]
        simp [List.replicate_succ]
      · have hmapeq : order2.map (fun i => remAt (rem.set j none) i) =
            order2.map (fun i => remAt rem i) := by
          refine List.map_congr_left (fun i hi => ?_)
          rw [remAt, listGet_set_other rem j i none
            (fun he => hne i hi he.symm)]
          rfl
        have hremAtj : remAt rem j = ws := by
          simp [remAt, hj]
        simp only [List.map_cons, catList, hremAtj]
        rw [applyWs_append, ← hmapeq]
        exact hst2

theorem holdsW_applyW_self (w : FWrite) (st : BridgeState) :
    holdsW w (applyW w st) := by
  cases w <;> rfl

theorem holdsW_mono (w w2 : FWrite) (st : BridgeState)
    (hne : fieldOfW w2 ≠ fieldOfW w) (h : holdsW w st) :
    holdsW w (applyW w2 st) := by
  cases w <;> cases w2 <;> first
    | exact absurd rfl hne
    | exact h

theorem applyWs_holds_frame (w : FWrite) (L : List FWrite)
    (st : BridgeState) (hne : ∀ w2 ∈ L, fieldOfW w2 ≠ fieldOfW w)
    (h : holdsW w st) : holdsW w (applyWs L st) := by
  induction L generalizing st with
  | nil => exact h
  | cons w2 L ih =>
    exact ih (applyW w2 st) (fun w3 h3 => hne w3 (by simp [h3]))
      (holdsW_mono w w2 st (hne w2 (by simp)) h)

theorem applyWs_holds (w : FWrite) (L : List FWrite) (st : BridgeState)
    (hmem : w ∈ L) (hnd : (L.map fieldOfW).Nodup) :
    holdsW w (applyWs L st) := by
  induction L generalizing st with
  | nil => simp at hmem
  | cons w2 L ih =>
    simp only [List.map_cons, List.nodup_cons] at hnd
    rcases List.mem_cons.mp hmem with rfl | hmem2
    · refine applyWs_holds_frame w L (applyW w st) ?_
        (holdsW_applyW_self w st)
      intro w3 h3 he
      exact hnd.1 (he ▸ List.mem_map_of_mem fieldOfW h3)
    · exact ih (applyW w2 st) hmem2 hnd.2

theorem remAt_map_some (wss : List (List FWrite)) (i : Nat) :
    remAt (wss.map some) i = wsAt wss i := by
  rw [remAt, wsAt, List.getElem?_map]
  rcases wss[i]? with _ | ws <;> rfl

theorem range_map_wsAt (wss : List (List FWrite)) :
    (List.range wss.length).map (fun i => wsAt wss i) = wss := by
  induction wss with
  | nil => rfl
  | cons ws wss ih =>
    simp only [List.length_cons, List.range_succ_eq_map, List.map_cons]
    have h1 : wsAt (ws :: wss) 0 = ws := by simp [wsAt]
    rw [h1]
    refine congrArg (List.cons ws) ?_
    rw [List.map_map,
      List.map_congr_left (fun i _ =>
        (by simp [wsAt] :
          ((fun i => wsAt (ws :: wss) i) ∘ Nat.succ) i = wsAt wss i))]
    exact ih

theorem catList_map {α β : Type} (f : α → β) (ls : List (List α)) :
    (catList ls).map f = catList (ls.map (List.map f)) := by
  induction ls with
  | nil => rfl
  | cons l ls ih => simp [catList, ih]

/-- Claim C8: in the trace model of the per-room lock, every complete
schedule of N concurrent merge invocations executes them without
interleaving their field stores — the schedule is a concatenation of whole
per-invocation blocks over some enumeration of the invocations,
unconditionally, whatever fields the invocations write — and when the
invocations additionally touch pairwise distinct fields, every stored
value is present in the final snapshot (no lost updates). -/
theorem C8_atomic_merge_no_lost_updates (wss : List (List FWrite))
    (cs : List Nat) (st : BridgeState) (fin : CConf)
    (hrun : crun ⟨wss.map threadProg, none, st⟩ cs = some fin)
    (hdone : ∀ lp ∈ fin.progs, lp = []) :
    (∃ order : List Nat, order.Nodup ∧
        (∀ i ∈ order, i < wss.length) ∧
        (∀ i, i < wss.length → i ∈ order) ∧
        cs = blockSched wss order) ∧
      ((catList (wss.map (fun ws => ws.map fieldOfW))).Nodup →
        ∀ ws ∈ wss, ∀ w ∈ ws, holdsW w fin.st) := by
  have hmap : (wss.map some).map progOf = wss.map threadProg := by
    rw [List.map_map]
    exact List.map_congr_left (fun ws _ => rfl)
  rw [← hmap] at hrun
  obtain ⟨order, hndo, hmem, hcomp, hsched, hst⟩ :=
    serialRun cs.length cs le_rfl (wss.map some) st fin hrun hdone
  have hlt : ∀ i ∈ order, i < wss.length := by
    intro i hi
    obtain ⟨ws, hws⟩ := hmem i hi
    have := listGet_lt _ i _ hws
    simpa using this
  have hall : ∀ i, i < wss.length → i ∈ order := by
    intro i hi
    refine hcomp i wss[i] ?_
    rw [List.getElem?_map, List.getElem?_eq_getElem hi]
    rfl
  have hperm : List.Perm order (List.range wss.length) := by
    refine List.perm_of_nodup_nodup_toFinset_eq hndo (List.nodup_range _) ?_
    refine Finset.ext (fun a => ?_)
    simp only [List.mem_toFinset, List.mem_range]
    exact ⟨hlt a, hall a⟩
  have hpermw : List.Perm (order.map (fun i => wsAt wss i)) wss := by
    have h1 := hperm.map (fun i => wsAt wss i)
    rw [range_map_wsAt wss] at h1
    exact h1
  have hL : order.map (fun i => remAt (wss.map some) i) =
      order.map (fun i => wsAt wss i) :=
    List.map_congr_left (fun i _ => remAt_map_some wss i)
  rw [hL] at hst
  have hpermcat : List.Perm (catList (order.map (fun i => wsAt wss i)))
      (catList wss) := by
    rw [catList_eq_flatten, catList_eq_flatten]
    exact hpermw.flatten
  constructor
  · refine ⟨order, hndo, hlt, hall, ?_⟩
    rw [hsched, blockSched]
    refine congrArg catList (List.map_congr_left (fun i _ => ?_))
    rw [remAt_map_some]
  · intro hnd ws hws w hw
    have hwmem : w ∈ catList (order.map (fun i => wsAt wss i)) :=
      hpermcat.symm.subset ((mem_catList w wss).mpr ⟨ws, hws, hw⟩)
    have hndL : ((catList (order.map (fun i => wsAt wss i))).map
        fieldOfW).Nodup := by
      refine ((hpermcat.map fieldOfW).nodup_iff).mpr ?_
      rw [catList_map]
      exact hnd
    rw [hst]
    exact applyWs_holds w _ st hwmem hndL

/-- Witness for C8 at a concrete input: two invocations writing ldrRaw and
tempC, scheduled strictly one after the other as the lock admits. -/
theorem C8_witness :
    (∃ order : List Nat, order.Nodup ∧
        (∀ i ∈ order,
          i < ([[FWrite.wLdrRaw 7], [FWrite.wTempC 21]] :
            List (List FWrite)).length) ∧
        (∀ i, i < ([[FWrite.wLdrRaw 7], [FWrite.wTempC 21]] :
            List (List FWrite)).length → i ∈ order) ∧
        [0, 0, 0, 1, 1, 1] =
          blockSched [[FWrite.wLdrRaw 7], [FWrite.wTempC 21]] order) ∧
      ∀ ws ∈ ([[FWrite.wLdrRaw 7], [FWrite.wTempC 21]] :
          List (List FWrite)), ∀ w ∈ ws,
        holdsW w
          (applyW (.wTempC 21) (applyW (.wLdrRaw 7) initBridge)) := by
  have h := C8_atomic_merge_no_lost_updates [[.wLdrRaw 7], [.wTempC 21]]
    [0, 0, 0, 1, 1, 1] initBridge
    ⟨[[], []], none, applyW (.wTempC 21) (applyW (.wLdrRaw 7) initBridge)⟩
    (by rfl) (by simp)
  exact ⟨h.1, h.2 (by decide)⟩

/-! ## Claims about the debouncers, the fuser and the classifier -/

/-- Claim C1, counterexample: the realtime_presence.py variant of
`stable_presence_detection` (one of the two code locations the claim is
about) does not report absence with zero delay: after two positive
observations, a call with a current detection count of 0 returns `true`. -/
theorem C1_counterexample :
    (RTP.stable_presence_detection [true, true] 0).2 = true := by decide

/-- Claim C1 (amended): zero-delay-off holds for the
AI_Presence_Detection.py variant of `stable_presence_detection`: for every
prior observation history, a call with a current detection count of 0
returns `false` on that same call, regardless of the window contents.  The
realtime_presence.py variant lacks the short circuit. -/
theorem C1_zero_delay_off_aipd (hist : List Bool) :
    (AIPD.stable_presence_detection hist 0).2 = false := by
  simp [AIPD.stable_presence_detection]

/-- Claim C3, counterexample: in the AI_Presence_Detection.py variant of
`stable_presence_detection`, a call on the full window [true, true, true,
false] with a current count of 0 records a window with 2 of the last 4
observations true, yet returns `false` (the zero-count short circuit
overrides the majority-of-recent rule). -/
theorem C3_counterexample :
    (AIPD.stable_presence_detection [true, true, true, false] 0).1.length =
        AIPD.history_size ∧
      2 ≤ (AIPD.stable_presence_detection [true, true, true, false]
            0).1.count true ∧
      (AIPD.stable_presence_detection [true, true, true, false] 0).2 =
        false := by decide

/-- Claim C3 (amended): if the window is full, at least 2 of the recorded
observations (current one included) are true, and additionally the current
detection count is positive, then both variants of
`stable_presence_detection` return `true` on the current call.  The
positivity proviso is forced by the AI_Presence_Detection.py variant's
zero-count short circuit. -/
theorem C3_majority_of_recent (hA hR : List Bool) (n : Nat) (hn : 0 < n)
    (hlA : hA.length = AIPD.history_size)
    (hlR : hR.length = RTP.history_size)
    (hcA : 2 ≤ (AIPD.stable_presence_detection hA n).1.count true)
    (hcR : 2 ≤ (RTP.stable_presence_detection hR n).1.count true) :
    (AIPD.stable_presence_detection hA n).2 = true ∧
      (RTP.stable_presence_detection hR n).2 = true := by
  have hn0 : n ≠ 0 := Nat.pos_iff_ne_zero.mp hn
  unfold AIPD.stable_presence_detection at hcA ⊢
  unfold RTP.stable_presence_detection at hcR ⊢
  simp only [AIPD.history_size] at hlA
  simp only [RTP.history_size] at hlR
  simp [hlA, hlR, hn0, AIPD.history_size, RTP.history_size] at hcA hcR ⊢
  exact ⟨hcA, hcR⟩

/-- Witness for C3 at a concrete input: full windows with 2 of the recorded
observations true and a positive current count. -/
theorem C3_witness :
    (AIPD.stable_presence_detection [true, true, false, false] 1).2 = true ∧
      (RTP.stable_presence_detection [true, true, false, false, false]
        1).2 = true :=
  C3_majority_of_recent [true, true, false, false]
    [true, true, false, false, false] 1 (by decide) (by decide) (by decide)
    (by decide) (by decide)

/-- Claim C4: `hybrid_presence_detection` records `now` whenever the primary
(HOG) signal fires, and, after the primary fired at `t0`, a run of calls
with both signals false returns `true` exactly at the query times `t` with
`t - t0 < person_timeout` (10 s) and `false` at all times `t` with
`t0 + person_timeout ≤ t`. -/
theorem C4_timeout_grace (last : ℚ) (m : Bool) (t0 : ℚ) (ts : List ℚ) :
    (SimplePresence.hybrid_presence_detection last true m t0).1 = t0 ∧
      SimplePresence.runDetect last
          ((true, m, t0) :: ts.map (fun t => (false, false, t))) =
        true ::
          ts.map (fun t => decide (t - t0 < SimplePresence.person_timeout)) := by
  refine ⟨rfl, ?_⟩
  have step : ∀ (us : List ℚ),
      SimplePresence.runDetect t0 (us.map (fun t => (false, false, t))) =
        us.map (fun t => decide (t - t0 < SimplePresence.person_timeout)) := by
    intro us
    induction us with
    | nil => rfl
    | cons t us ih =>
      by_cases h : t - t0 < SimplePresence.person_timeout <;>
        simp [SimplePresence.runDetect,
          SimplePresence.hybrid_presence_detection, h, ih]
  simp [SimplePresence.runDetect, SimplePresence.hybrid_presence_detection,
    step ts]

/-- Claim C10: `classify_air_quality` partitions the integer readings:
Poor with the poor-alert text exactly when raw ≥ 401, Moderate with the
moderate-warning text exactly when 301 ≤ raw ≤ 400, Good with the empty
alert otherwise; hence the alert is non-empty exactly when the status is
not Good. -/
theorem C10_air_quality_partition (raw : Int) :
    (classify_air_quality raw = ("Poor", "Alert, air quality poor") ↔
        401 ≤ raw) ∧
      (classify_air_quality raw =
          ("Moderate", "Warning, air quality moderate") ↔
        301 ≤ raw ∧ raw ≤ 400) ∧
      (classify_air_quality raw = ("Good", "") ↔ raw ≤ 300) ∧
      ((classify_air_quality raw).2 ≠ "" ↔
        (classify_air_quality raw).1 ≠ "Good") := by
  unfold classify_air_quality AQ_GOOD_MAX AQ_MODERATE_MAX
  by_cases h1 : raw ≥ (400 : Int) + 1
  · rw [if_pos h1]
    refine ⟨?_, ?_, ?_, ?_⟩ <;> (try simp) <;> omega
  · rw [if_neg h1]
    by_cases h2 : raw ≥ (300 : Int) + 1
    · rw [if_pos h2]
      refine ⟨?_, ?_, ?_, ?_⟩ <;> (try simp) <;> omega
    · rw [if_neg h2]
      refine ⟨?_, ?_, ?_, ?_⟩ <;> (try simp) <;> omega

end SmartClassroom
